import Mathlib

set_option maxHeartbeats 1000000

/-!
Shallow embedding of the GPT-OSS MCP browser-tool server
(`src/mcp_server.rs`): the session store, the three tools
(`search`, `open`, `find`) and the JSON-RPC dispatcher.

Machine integers are modelled as `Nat`/`Int` with explicit reductions
modulo `2 ^ 64` where Rust release-mode wrapping matters; Rust `panic!`
sites (out-of-range slice indexing) are modelled as an explicit
`panic` outcome; fallible code returns `Except`.
-/

namespace GptOssMcp

/-! ### Association-list model of `std::collections::HashMap` -/

/-- `HashMap::get`: first (and only) binding of a key. -/
def mapLookup {α : Type} (k : String) : List (String × α) → Option α
  | [] => none
  | (k', v) :: m => if k' = k then some v else mapLookup k m

/-- `HashMap::remove`: the map without the key. -/
def mapRemove {α : Type} (k : String) (m : List (String × α)) : List (String × α) :=
  m.filter (fun p => p.1 != k)

/-- `HashMap::insert`: replaces any existing binding of the key. -/
def mapInsert {α : Type} (k : String) (v : α) (m : List (String × α)) : List (String × α) :=
  (k, v) :: mapRemove k m

/-! ### Rust string primitives -/

/-- Splits a character list at every newline character, keeping empty parts
(the semantics of `str::split('\n')`). -/
def splitNl : List Char → List (List Char)
  | [] => [[]]
  | c :: cs =>
    if c = '\n' then [] :: splitNl cs
    else
      match splitNl cs with
      | [] => [[c]]
      | l :: ls => (c :: l) :: ls

/-- Drops one trailing carriage return, as `str::lines` does on
newline-terminated parts. -/
def dropLastCR (l : List Char) : List Char :=
  if l.getLast? = some '\r' then l.dropLast else l

/-- `str::lines` on the parts produced by `splitNl`: the final part is
dropped when empty (trailing newline) and kept verbatim otherwise;
every newline-terminated part loses a trailing `\r`. -/
def rustLinesC : List (List Char) → List (List Char)
  | [] => []
  | [l] => if l = [] then [] else [l]
  | l :: ls => dropLastCR l :: rustLinesC ls

/-- `str::lines().collect()` : the lines of a string. -/
def rustLines (s : String) : List String :=
  (rustLinesC (splitNl s.data)).map String.mk

/-- `str::trim`: whitespace stripped from both ends. -/
def rustTrim (s : String) : String :=
  ⟨(s.data.dropWhile Char.isWhitespace).reverse.dropWhile Char.isWhitespace |>.reverse⟩

/-- `a.starts_with(b)` on character lists. -/
def startsWithL : List Char → List Char → Bool
  | [], _ => true
  | _ :: _, [] => false
  | a :: as, b :: bs => a == b && startsWithL as bs

/-- `str::contains` (substring containment) on character lists:
`pat` occurs contiguously in `hay`. -/
def containsL (hay pat : List Char) : Bool :=
  startsWithL pat hay ||
    match hay with
    | [] => false
    | _ :: t => containsL t pat

/-- `str::to_lowercase` (ASCII-faithful model). -/
def lowerL (s : String) : List Char := s.data.map Char.toLower

/-- `line.to_lowercase().contains(&pattern.to_lowercase())` from
`execute_find`. -/
def lineMatches (pattern line : String) : Bool :=
  containsL (lowerL line) (lowerL pattern)

/-! ### Session state (`BrowserSession`, `SESSIONS`) -/

/-- Per-session browsing state. -/
structure BrowserSession where
  current_url : Option String
  current_content : Option String
  pages : List (String × String)
deriving DecidableEq

/-- `BrowserSession::default`. -/
def BrowserSession.default : BrowserSession :=
  { current_url := none, current_content := none, pages := [] }

/-- The shared `SESSIONS` map, session id to state. -/
abbrev Sessions := List (String × BrowserSession)

/-! ### `execute_search`: effective `topn` -/

/-- `arguments.get("topn").and_then(|v| v.as_u64())`: a supplied JSON
integer survives `as_u64` exactly when it lies in `[0, 2^64)`. -/
def topn_as_u64 (v : Option Int) : Option Nat :=
  v.bind (fun n => if 0 ≤ n ∧ n < 2 ^ 64 then some n.toNat else none)

/-- The effective result limit of `execute_search`:
`.unwrap_or(10).min(50).max(1)`. -/
def effective_topn (v : Option Int) : Nat :=
  max (min ((topn_as_u64 v).getD 10) 50) 1

/-! ### `execute_open` -/

/-- Rust `usize` modulus. -/
def USIZE : Nat := 2 ^ 64

/-- `num_lines as usize`: an `as`-cast from `i64`, wrapping modulo `2^64`. -/
def i64_as_usize (n : Int) : Nat := (n % (USIZE : Int)).toNat

/-- Release-mode `usize` addition (wraps modulo `2^64`). -/
def wrapAdd (a b : Nat) : Nat := (a + b) % USIZE

/-- The end index computed by `execute_open`:
`total_lines` when `num_lines == -1`, else
`(loc + num_lines as usize).min(total_lines)`. -/
def open_end_loc (loc : Nat) (num_lines : Int) (total_lines : Nat) : Nat :=
  if num_lines = -1 then total_lines
  else min (wrapAdd loc (i64_as_usize num_lines)) total_lines

/-- Outcome of one `open` pagination: success text, tool error text, or a
Rust panic (out-of-range slice index). -/
inductive OpenOutcome where
  | ok (s : String)
  | err (e : String)
  | panic
deriving DecidableEq

/-- Whether an outcome is a success. -/
def OpenOutcome.isOk : OpenOutcome → Bool
  | .ok _ => true
  | _ => false

/-- Pagination and rendering of `execute_open` (everything after the
session update): the `loc >= total_lines` check, the end index, the
numbered lines, the truncation notice and the URL/stats footer.
`&lines[loc..end_loc]` panics when `loc > end_loc`; that is the `panic`
outcome. -/
def openPaginate (url content : String) (loc : Nat) (num_lines : Int) : OpenOutcome :=
  let lines := rustLines content
  let total_lines := lines.length
  if loc ≥ total_lines then
    .err ("❌ Invalid location parameter: " ++ Nat.repr loc ++
      ". Cannot exceed page maximum of " ++ Nat.repr (total_lines - 1) ++ ".")
  else
    let end_loc := open_end_loc loc num_lines total_lines
    if end_loc < loc then .panic
    else
      let lines_to_show := (lines.drop loc).take (end_loc - loc)
      let header := ("📄 **" ++ url ++ "**\n\n") ++
        (if loc > 0 then "📄 [Starting from line " ++ Nat.repr loc ++ "]\n\n" else "")
      let body := String.join (lines_to_show.enum.map
        (fun p => "L" ++ Nat.repr (loc + p.1) ++ ": " ++ p.2 ++ "\n"))
      let trunc := if end_loc < total_lines then
          "\n📄 [Content truncated at line " ++ Nat.repr (end_loc - 1) ++ " of " ++
            Nat.repr (total_lines - 1) ++ ". Use loc parameter to continue reading.]"
        else ""
      let footer := ("\n\n🔗 **URL:** " ++ url) ++
        ("\n📊 **Stats:** " ++ Nat.repr total_lines ++ " lines total")
      .ok (header ++ body ++ trunc ++ footer)

/-- The session update of `execute_open`: `entry(session_id).or_default()`,
then `current_url`/`current_content` set to the opened page and the page
inserted into `pages`. -/
def openUpdate (sessions : Sessions) (session_id url content : String) : Sessions :=
  let session := (mapLookup session_id sessions).getD BrowserSession.default
  mapInsert session_id
    { current_url := some url
      current_content := some content
      pages := mapInsert url content session.pages } sessions

/-- `execute_open`. The Content Fetcher (`fetch_page_content`) is the
external collaborator `fetch`. Returns the updated `SESSIONS` map, whether
the fetcher was invoked, and the outcome. The cached content is used when
the session already has `url` in `pages`; otherwise the fetcher runs. The
session update happens before pagination, so it survives pagination
errors. -/
def execute_open (fetch : String → Except String String) (sessions : Sessions)
    (session_id url : String) (loc : Nat) (num_lines : Int) :
    Sessions × Bool × OpenOutcome :=
  if rustTrim url = "" then (sessions, false, .err ("❌ Error: URL is required."))
  else
    match (mapLookup session_id sessions).bind (fun s => mapLookup url s.pages) with
    | some cached =>
      (openUpdate sessions session_id url cached, false, openPaginate url cached loc num_lines)
    | none =>
      match fetch url with
      | .error e => (sessions, true, .err e)
      | .ok content =>
        (openUpdate sessions session_id url content, true, openPaginate url content loc num_lines)

/-! ### `execute_find` -/

/-- The context window rendered around a matching line: the slice
`lines[line_num.saturating_sub(2) .. (line_num + 3).min(lines.len())]`,
each line numbered absolutely and the matching line bracketed. -/
def contextLines (lines : List String) (line_num : Nat) : List String :=
  let start_line := line_num - 2
  let end_line := min (line_num + 3) lines.length
  ((lines.drop start_line).take (end_line - start_line)).enum.map
    (fun p =>
      let actual_line_num := start_line + p.1
      if actual_line_num = line_num then
        "L" ++ Nat.repr actual_line_num ++ ": >>> " ++ p.2 ++ " <<<"
      else
        "L" ++ Nat.repr actual_line_num ++ ": " ++ p.2)

/-- The match list of `execute_find`: every line index whose lowercased
text contains the lowercased pattern, paired with its context window. -/
def findMatches (pattern : String) (lines : List String) : List (Nat × List String) :=
  lines.enum.filterMap
    (fun p => if lineMatches pattern p.2 then some (p.1, contextLines lines p.1) else none)

/-- One rendered match block (`**Match {i+1} at line {line_num}:**` plus
its context lines). -/
def findBlock (i : Nat) (m : Nat × List String) : String :=
  ("**Match " ++ Nat.repr (i + 1) ++ " at line " ++ Nat.repr m.1 ++ ":**\n") ++
    String.join (m.2.map (fun c => c ++ "\n")) ++ "\n"

/-- Matching and rendering of `execute_find` on the selected content
(everything after content selection). -/
def findInContent (pattern content url : String) : String :=
  let lines := rustLines content
  let ms := findMatches pattern lines
  if ms = [] then
    ("🔎 No matches found for pattern: '" ++ pattern ++
      "'\n\n💡 **Suggestions:**\n- Check spelling\n- Try a different search term\n- Use partial words or phrases")
  else
    ("🔎 **Found " ++ Nat.repr ms.length ++ " match(es) for '" ++ pattern ++ "' in " ++
        url ++ ":**\n\n") ++
      String.join ((ms.take 10).enum.map (fun p => findBlock p.1 p.2)) ++
      (if ms.length > 10 then
        "... and " ++ Nat.repr (ms.length - 10) ++ " more matches (showing first 10)\n\n"
      else "") ++
      "💡 Use the line numbers to navigate to specific matches."

/-- `execute_find`: pattern check, content selection (explicit `url`
argument against `pages`, else the current page), then matching. -/
def execute_find (sessions : Sessions) (session_id : String)
    (pattern : String) (urlArg : Option String) : Except String String :=
  if rustTrim pattern = "" then .error ("❌ Error: Search pattern cannot be empty.")
  else
    match urlArg with
    | some u =>
      match mapLookup session_id sessions with
      | some session =>
        match mapLookup u session.pages with
        | some page_content => .ok (findInContent pattern page_content u)
        | none => .error ("❌ Page not found in session: " ++ u ++ "\nPlease open the page first.")
      | none => .error ("❌ No active session found.")
    | none =>
      match mapLookup session_id sessions with
      | some session =>
        match session.current_content, session.current_url with
        | some c, some u => .ok (findInContent pattern c u)
        | _, _ =>
          .error ("❌ No page is currently open.\nPlease open a page first using the 'open' tool.")
      | none => .error ("❌ No active session found.")

/-! ### JSON-RPC dispatcher (`handle_mcp_request`, `handle_tools_call`) -/

/-- Minimal model of `serde_json::Value`. -/
inductive Json where
  | null
  | bool (b : Bool)
  | num (n : Int)
  | str (s : String)
  | arr (elems : List Json)
  | obj (fields : List (String × Json))

/-- `Value::get` on an object. -/
def Json.get (j : Json) (key : String) : Option Json :=
  match j with
  | .obj fields => mapLookup key fields
  | _ => none

/-- `Value::as_str`. -/
def Json.asStr : Json → Option String
  | .str s => some s
  | _ => none

/-- A parsed `JsonRpcRequest`. -/
structure JsonRpcRequest where
  jsonrpc : String
  id : Option Json
  method : String
  params : Option Json

/-- A `JsonRpcError` (`data` always carries a string in this server). -/
structure JsonRpcError where
  code : Int
  message : String
  data : Option String
deriving DecidableEq

/-- A `JsonRpcResponse`, with success payloads elided: every handler
result is either a success envelope or an error envelope, and the claims
only inspect the error side. -/
inductive McpResponse where
  | success (id : Option Json)
  | failure (id : Option Json) (err : JsonRpcError)

/-- The `error` field of a response. -/
def McpResponse.error : McpResponse → Option JsonRpcError
  | .success _ => none
  | .failure _ e => some e

/-- The key set of the static `TOOLS` registry (used by
`TOOLS.contains_key` in `handle_tools_call`; the schema payloads are only
echoed by `tools/list` and are not modelled). -/
def TOOLS_keys : List String := [("search"), ("open"), ("find")]

/-- `handle_tools_call`, with tool execution abstracted as the oracle
`toolExec` (the tool logic itself is modelled by `execute_open`,
`execute_find` and `effective_topn` above). -/
def handle_tools_call (toolExec : String → Json → String → Except String String)
    (req : JsonRpcRequest) (session_id : String) (sessions : Sessions) :
    McpResponse × Sessions :=
  match req.params with
  | none => (.failure req.id ⟨-32602, "Invalid params", some "Missing parameters"⟩, sessions)
  | some params =>
    match (params.get ("name")).bind Json.asStr with
    | none => (.failure req.id ⟨-32602, "Invalid params", some "Missing tool name"⟩, sessions)
    | some tool_name =>
      if TOOLS_keys.contains tool_name then
        let arguments := (params.get ("arguments")).getD (.obj [])
        match toolExec tool_name arguments session_id with
        | .ok _ => (.success req.id, sessions)
        | .error e => (.failure req.id ⟨-32603, "Internal error", some e⟩, sessions)
      else
        (.failure req.id ⟨-32601, "Method not found", some ("Unknown tool: " ++ tool_name)⟩,
          sessions)

/-- The method dispatch of `handle_mcp_request`, from the successfully
parsed request on: version validation, then routing over the six
recognized methods, with the default arm returning Method-Not-Found. -/
def handle_mcp_request (toolExec : String → Json → String → Except String String)
    (req : JsonRpcRequest) (session_id : String) (sessions : Sessions) :
    McpResponse × Sessions :=
  if req.jsonrpc ≠ "2.0" then
    (.failure req.id ⟨-32600, "Invalid Request", some "JSON-RPC version must be 2.0"⟩, sessions)
  else if req.method = "initialize" then (.success req.id, sessions)
  else if req.method = "tools/list" then (.success req.id, sessions)
  else if req.method = "tools/call" then handle_tools_call toolExec req session_id sessions
  else if req.method = "ping" then (.success req.id, sessions)
  else if req.method = "session/terminate" then
    let session_info := ((req.params.bind (fun p => p.get ("sessionId"))).bind Json.asStr).getD
      ("unknown")
    (.success req.id, mapRemove session_info sessions)
  else if req.method = "notifications/cancelled" then (.success req.id, sessions)
  else
    (.failure req.id ⟨-32601, "Method not found", some ("Unknown method: " ++ req.method)⟩,
      sessions)

/-! ### Operation traces over the session store (for the state invariant) -/

/-- One session-store-visible operation. -/
inductive Op where
  | opn (sid url : String) (loc : Nat) (num_lines : Int)
  | fnd (sid pattern : String) (urlArg : Option String)
  | srch (sid query : String) (topn : Option Int)
  | term (sid : String)

/-- The effect of one operation on the `SESSIONS` map: `open` applies
`execute_open`'s update, `find` and `search` read only, termination
removes the session. -/
def stepOp (fetch : String → Except String String) (sessions : Sessions) : Op → Sessions
  | .opn sid url loc num_lines => (execute_open fetch sessions sid url loc num_lines).1
  | .fnd _ _ _ => sessions
  | .srch _ _ _ => sessions
  | .term sid => mapRemove sid sessions

/-- The store reached by a trace of operations from the initial empty
store. -/
def runOps (fetch : String → Except String String) (trace : List Op) : Sessions :=
  trace.foldl (stepOp fetch) []

/-- The `(url, content)` pair of the most recent `open` in the trace that
updated the given session: its URL was nonempty after trimming and its
content resolved (the fetcher is a pure oracle, so cached and fetched
content agree and resolution succeeds exactly when `fetch` does). -/
def lastOpenedStep (fetch : String → Except String String) (sid : String)
    (acc : Option (String × String)) : Op → Option (String × String)
  | .opn sid' url _ _ =>
    if sid' = sid ∧ rustTrim url ≠ "" then
      match fetch url with
      | .ok c => some (url, c)
      | .error _ => acc
    else acc
  | _ => acc

/-- The `(url, content)` pair of the most recent `open` in the trace that
updated the given session. -/
def lastOpened (fetch : String → Except String String) (sid : String)
    (trace : List Op) : Option (String × String) :=
  trace.foldl (lastOpenedStep fetch sid) none

/-- The store invariant tying each stored session to the trace: its
current URL/content are both set, agree with its own `pages` cache, and
are exactly the most recently opened page; and every cache entry is the
fetcher's output for its URL. -/
def StoreInv (fetch : String → Except String String) (st : Sessions)
    (lo : String → Option (String × String)) : Prop :=
  ∀ sid s, mapLookup sid st = some s →
    ((∃ u c, s.current_url = some u ∧ s.current_content = some c ∧
        mapLookup u s.pages = some c ∧ lo sid = some (u, c)) ∧
      (∀ u c, mapLookup u s.pages = some c → fetch u = Except.ok c))

/-! ### Helper lemmas -/

theorem mapLookup_remove_self {α : Type} (k : String) (m : List (String × α)) :
    mapLookup k (mapRemove k m) = none := by
  induction m with
  | nil => rfl
  | cons p m ih =>
    obtain ⟨k1, v⟩ := p
    by_cases h : k1 = k
    · subst h
      simpa [mapRemove, List.filter_cons] using ih
    · simpa [mapRemove, List.filter_cons, bne_iff_ne, h, mapLookup] using ih

theorem mapLookup_remove_ne {α : Type} {k k' : String} (m : List (String × α)) (h : k' ≠ k) :
    mapLookup k' (mapRemove k m) = mapLookup k' m := by
  induction m with
  | nil => rfl
  | cons p m ih =>
    obtain ⟨k1, v⟩ := p
    simp only [mapRemove] at ih ⊢
    by_cases hk : k1 = k
    · subst hk
      have hne : k1 ≠ k' := fun hc => h hc.symm
      simp [List.filter_cons, mapLookup, hne, ih]
    · simp [List.filter_cons, bne_iff_ne, hk, mapLookup, ih]

theorem mapLookup_insert_self {α : Type} (k : String) (v : α) (m : List (String × α)) :
    mapLookup k (mapInsert k v m) = some v := by
  simp [mapInsert, mapLookup]

theorem mapLookup_insert_ne {α : Type} {k k' : String} (v : α) (m : List (String × α))
    (h : k' ≠ k) : mapLookup k' (mapInsert k v m) = mapLookup k' m := by
  have hne : k ≠ k' := fun hc => h hc.symm
  simp [mapInsert, mapLookup, hne]
  exact mapLookup_remove_ne m h

theorem startsWithL_iff (pat hay : List Char) : startsWithL pat hay = true ↔ pat <+: hay := by
  induction pat generalizing hay with
  | nil => simp [startsWithL, List.nil_prefix]
  | cons a as ih =>
    cases hay with
    | nil => simp [startsWithL, List.prefix_nil]
    | cons b bs => simp [startsWithL, List.cons_prefix_cons, ih, Bool.and_eq_true, beq_iff_eq]

theorem containsL_iff (hay pat : List Char) : containsL hay pat = true ↔ pat <:+: hay := by
  induction hay with
  | nil =>
    simp [containsL, startsWithL_iff, List.prefix_nil, List.infix_nil]
  | cons a t ih =>
    simp [containsL, Bool.or_eq_true, startsWithL_iff, ih, List.infix_cons_iff]

/-- Mapping an index-aware function over the enumeration of a list slice
equals mapping the function over the absolute index interval. -/
theorem enum_slice_map {α β : Type} (d : α) (f : Nat → α → β) (xs : List α) (loc len : Nat)
    (h : loc + len ≤ xs.length) :
    ((xs.drop loc).take len).enum.map (fun p => f (loc + p.1) p.2) =
      (List.range' loc len).map (fun n => f n (xs.getD n d)) := by
  apply List.ext_getElem
  · simp
    omega
  · intro i h1 h2
    have hi : i < len := by
      simp at h1
      omega
    have hix : loc + i < xs.length := by omega
    simp [List.getElem_range', List.getElem?_eq_getElem hix]

/-- The context window of `execute_find`, as the absolute index interval
from `max 0 (i-2)` (which is `i - 2` in `Nat`) up to `min (i+3) total`,
the matched line bracketed. -/
theorem contextLines_eq (lines : List String) (i : Nat) (hi : i < lines.length) :
    contextLines lines i =
      (List.range' (i - 2) (min (i + 3) lines.length - (i - 2))).map
        (fun n =>
          if n = i then "L" ++ Nat.repr n ++ ": >>> " ++ lines.getD n ("") ++ " <<<"
          else "L" ++ Nat.repr n ++ ": " ++ lines.getD n ("")) := by
  exact enum_slice_map ("")
    (fun n line =>
      if n = i then "L" ++ Nat.repr n ++ ": >>> " ++ line ++ " <<<"
      else "L" ++ Nat.repr n ++ ": " ++ line)
    lines (i - 2) (min (i + 3) lines.length - (i - 2)) (by omega)

/-- Membership in the match list of `execute_find`. -/
theorem findMatches_mem (pattern : String) (lines : List String) (i : Nat) (ctx : List String) :
    (i, ctx) ∈ findMatches pattern lines ↔
      i < lines.length ∧ lineMatches pattern (lines.getD i ("")) = true ∧
        ctx = contextLines lines i := by
  unfold findMatches
  rw [List.mem_filterMap]
  constructor
  · rintro ⟨⟨j, line⟩, hmem, hf⟩
    rw [List.mem_enum_iff_getElem?] at hmem
    have hj : j < lines.length := by
      by_contra hc
      rw [List.getElem?_eq_none (by omega)] at hmem
      cases hmem
    rw [List.getElem?_eq_getElem hj] at hmem
    have hline : lines[j] = line := by injection hmem
    by_cases hm : lineMatches pattern line = true
    · simp only [hm, if_true, Option.some.injEq, Prod.mk.injEq] at hf
      obtain ⟨h1, h2⟩ := hf
      subst h1
      refine ⟨hj, ?_, h2.symm⟩
      rw [List.getD_eq_getElem lines ("") hj, hline]
      exact hm
    · simp only [Bool.not_eq_true] at hm
      simp [hm] at hf
  · rintro ⟨hi, hm, hctx⟩
    refine ⟨(i, lines[i]), ?_, ?_⟩
    · rw [List.mem_enum_iff_getElem?, List.getElem?_eq_getElem hi]
    · rw [List.getD_eq_getElem lines ("") hi] at hm
      simp [hm, hctx]

/-- For `num_lines = -1` the cast-and-wrap arithmetic is bypassed; for
`0 ≤ num_lines < 2^63` it collapses to plain arithmetic when the line
count stays below `2^63`. -/
theorem open_end_loc_eq (loc : Nat) (nl : Int) (total : Nat)
    (h1 : -1 ≤ nl) (h2 : nl < 2 ^ 63) (h3 : total ≤ 2 ^ 63) (h4 : loc < total) :
    open_end_loc loc nl total =
      (if nl = -1 then total else min (loc + nl.toNat) total) := by
  unfold open_end_loc
  by_cases hm : nl = -1
  · simp [hm]
  · have hnl : 0 ≤ nl := by omega
    have hcast : i64_as_usize nl = nl.toNat := by
      unfold i64_as_usize USIZE
      rw [Int.emod_eq_of_lt hnl (by omega)]
    have hlt : loc + nl.toNat < 2 ^ 64 := by omega
    simp only [hm, if_false, hcast, wrapAdd, USIZE, Nat.mod_eq_of_lt hlt]

theorem open_end_loc_bounds (loc : Nat) (nl : Int) (total : Nat)
    (h1 : -1 ≤ nl) (h2 : nl < 2 ^ 63) (h3 : total ≤ 2 ^ 63) (h4 : loc < total) :
    loc ≤ open_end_loc loc nl total ∧ open_end_loc loc nl total ≤ total := by
  rw [open_end_loc_eq loc nl total h1 h2 h3 h4]
  by_cases hm : nl = -1
  · simp [hm]
    omega
  · simp [hm]
    omega

theorem open_end_loc_le (loc : Nat) (nl : Int) (total : Nat) :
    open_end_loc loc nl total ≤ total := by
  unfold open_end_loc
  by_cases hm : nl = -1 <;> simp [hm]

/-- Successful pagination, with the numbered body expressed over the
absolute index interval `[loc, end_loc)`. -/
theorem openPaginate_ok_form (url content : String) (loc : Nat) (nl : Int)
    (hloc : loc < (rustLines content).length)
    (hle : loc ≤ open_end_loc loc nl (rustLines content).length) :
    openPaginate url content loc nl =
      OpenOutcome.ok (
        (("📄 **" ++ url ++ "**\n\n") ++
          (if loc > 0 then "📄 [Starting from line " ++ Nat.repr loc ++ "]\n\n" else "")) ++
        String.join
          ((List.range' loc (open_end_loc loc nl (rustLines content).length - loc)).map
            (fun n => "L" ++ Nat.repr n ++ ": " ++ (rustLines content).getD n ("") ++ "\n")) ++
        (if open_end_loc loc nl (rustLines content).length < (rustLines content).length then
          "\n📄 [Content truncated at line " ++
            Nat.repr (open_end_loc loc nl (rustLines content).length - 1) ++ " of " ++
            Nat.repr ((rustLines content).length - 1) ++
            ". Use loc parameter to continue reading.]"
        else "") ++
        (("\n\n🔗 **URL:** " ++ url) ++
          ("\n📊 **Stats:** " ++ Nat.repr ((rustLines content).length) ++ " lines total"))) := by
  have hend := open_end_loc_le loc nl (rustLines content).length
  have hb :
      (((rustLines content).drop loc).take
          (open_end_loc loc nl (rustLines content).length - loc)).enum.map
        (fun p => "L" ++ Nat.repr (loc + p.1) ++ ": " ++ p.2 ++ "\n") =
      (List.range' loc (open_end_loc loc nl (rustLines content).length - loc)).map
        (fun n => "L" ++ Nat.repr n ++ ": " ++ (rustLines content).getD n ("") ++ "\n") :=
    enum_slice_map ("") (fun n line => "L" ++ Nat.repr n ++ ": " ++ line ++ "\n")
      (rustLines content) loc (open_end_loc loc nl (rustLines content).length - loc) (by omega)
  simp only [openPaginate]
  rw [if_neg (by omega), if_neg (by omega), hb]

theorem openPaginate_ne_panic (url content : String) (loc : Nat) (nl : Int)
    (h1 : -1 ≤ nl) (h2 : nl < 2 ^ 63) (h3 : (rustLines content).length ≤ 2 ^ 63) :
    openPaginate url content loc nl ≠ OpenOutcome.panic := by
  by_cases hloc : loc < (rustLines content).length
  · have hb := open_end_loc_bounds loc nl (rustLines content).length h1 h2 h3 hloc
    rw [openPaginate_ok_form url content loc nl hloc hb.1]
    simp
  · simp only [openPaginate]
    rw [if_pos (by omega)]
    simp

theorem execute_open_cached (fetch : String → Except String String) (sessions : Sessions)
    (sid url : String) (loc : Nat) (nl : Int) (s : BrowserSession) (c : String)
    (hurl : rustTrim url ≠ "") (hs : mapLookup sid sessions = some s)
    (hc : mapLookup url s.pages = some c) :
    execute_open fetch sessions sid url loc nl =
      (openUpdate sessions sid url c, false, openPaginate url c loc nl) := by
  simp [execute_open, hurl, hs, hc]

theorem execute_open_fetched (fetch : String → Except String String) (sessions : Sessions)
    (sid url : String) (loc : Nat) (nl : Int) (c : String)
    (hurl : rustTrim url ≠ "")
    (hmiss : (mapLookup sid sessions).bind (fun s => mapLookup url s.pages) = none)
    (hf : fetch url = Except.ok c) :
    execute_open fetch sessions sid url loc nl =
      (openUpdate sessions sid url c, true, openPaginate url c loc nl) := by
  simp [execute_open, hurl, hmiss, hf]

theorem execute_open_fetch_err (fetch : String → Except String String) (sessions : Sessions)
    (sid url : String) (loc : Nat) (nl : Int) (e : String)
    (hurl : rustTrim url ≠ "")
    (hmiss : (mapLookup sid sessions).bind (fun s => mapLookup url s.pages) = none)
    (hf : fetch url = Except.error e) :
    execute_open fetch sessions sid url loc nl = (sessions, true, .err e) := by
  simp [execute_open, hurl, hmiss, hf]

theorem openUpdate_lookup_self (sessions : Sessions) (sid url content : String) :
    mapLookup sid (openUpdate sessions sid url content) =
      some { current_url := some url
             current_content := some content
             pages := mapInsert url content
               (((mapLookup sid sessions).getD BrowserSession.default).pages) } := by
  simp [openUpdate, mapLookup_insert_self]

theorem openUpdate_lookup_ne (sessions : Sessions) (sid sid' url content : String)
    (h : sid' ≠ sid) :
    mapLookup sid' (openUpdate sessions sid url content) = mapLookup sid' sessions := by
  simp only [openUpdate]
  exact mapLookup_insert_ne _ _ h

/-- Invariant preservation across one `open` that resolved content `c`
for `url` and updated the store. -/
theorem storeInv_openUpdate (fetch : String → Except String String) (st : Sessions)
    (lo : String → Option (String × String)) (sid0 url c : String) (loc : Nat) (nl : Int)
    (h : StoreInv fetch st lo) (hurl : rustTrim url ≠ "") (hf : fetch url = Except.ok c) :
    StoreInv fetch (openUpdate st sid0 url c)
      (fun sid => lastOpenedStep fetch sid (lo sid) (.opn sid0 url loc nl)) := by
  intro sid s hs
  by_cases he : sid = sid0
  · subst he
    rw [openUpdate_lookup_self] at hs
    injection hs with hs
    subst hs
    constructor
    · refine ⟨url, c, rfl, rfl, mapLookup_insert_self _ _ _, ?_⟩
      simp [lastOpenedStep, hurl, hf]
    · intro u c' hu
      by_cases hu' : u = url
      · subst hu'
        rw [mapLookup_insert_self] at hu
        injection hu with hu
        subst hu
        exact hf
      · rw [mapLookup_insert_ne _ _ hu'] at hu
        rcases hs0 : mapLookup sid st with _ | s0
        · rw [hs0] at hu
          simp [BrowserSession.default, mapLookup] at hu
        · rw [hs0] at hu
          exact (h sid s0 hs0).2 u c' hu
  · rw [openUpdate_lookup_ne st sid0 sid url c he] at hs
    have hh := h sid s hs
    refine ⟨?_, hh.2⟩
    obtain ⟨u, c', h1, h2, h3, h4⟩ := hh.1
    refine ⟨u, c', h1, h2, h3, ?_⟩
    have hne : ¬ (sid0 = sid) := fun hc => he hc.symm
    simp [lastOpenedStep, hne, h4]

/-- Invariant preservation across one operation. -/
theorem storeInv_step (fetch : String → Except String String) (st : Sessions)
    (lo : String → Option (String × String)) (op : Op) (h : StoreInv fetch st lo) :
    StoreInv fetch (stepOp fetch st op) (fun sid => lastOpenedStep fetch sid (lo sid) op) := by
  cases op with
  | fnd sid0 p u => simpa [stepOp, lastOpenedStep] using h
  | srch sid0 q t => simpa [stepOp, lastOpenedStep] using h
  | term sid0 =>
    intro sid s hs
    simp only [stepOp] at hs
    by_cases he : sid = sid0
    · subst he
      rw [mapLookup_remove_self] at hs
      cases hs
    · rw [mapLookup_remove_ne st he] at hs
      simpa [lastOpenedStep] using h sid s hs
  | opn sid0 url loc nl =>
    by_cases hurl : rustTrim url = ""
    · intro sid s hs
      simp only [stepOp, execute_open, hurl, if_pos] at hs
      simpa [lastOpenedStep, hurl] using h sid s hs
    · have herr : ∀ e, fetch url = Except.error e →
          ((mapLookup sid0 st).bind (fun s => mapLookup url s.pages) = none) →
          StoreInv fetch (stepOp fetch st (.opn sid0 url loc nl))
            (fun sid => lastOpenedStep fetch sid (lo sid) (.opn sid0 url loc nl)) := by
        intro e hf hmiss sid s hs
        simp only [stepOp] at hs
        rw [execute_open_fetch_err fetch st sid0 url loc nl e hurl hmiss hf] at hs
        have hh := h sid s hs
        refine ⟨?_, hh.2⟩
        obtain ⟨u, c', h1, h2, h3, h4⟩ := hh.1
        refine ⟨u, c', h1, h2, h3, ?_⟩
        by_cases he : sid0 = sid
        · subst he
          simp [lastOpenedStep, hurl, hf, h4]
        · simp [lastOpenedStep, he, h4]
      rcases hs0 : mapLookup sid0 st with _ | s0
      · rcases hf : fetch url with e | c
        · exact herr e hf (by simp [hs0])
        · intro sid s hs
          simp only [stepOp] at hs
          rw [execute_open_fetched fetch st sid0 url loc nl c hurl (by simp [hs0]) hf] at hs
          exact storeInv_openUpdate fetch st lo sid0 url c loc nl h hurl hf sid s hs
      · rcases hc : mapLookup url s0.pages with _ | c
        · rcases hf : fetch url with e | c
          · exact herr e hf (by simp [hs0, hc])
          · intro sid s hs
            simp only [stepOp] at hs
            rw [execute_open_fetched fetch st sid0 url loc nl c hurl (by simp [hs0, hc]) hf] at hs
            exact storeInv_openUpdate fetch st lo sid0 url c loc nl h hurl hf sid s hs
        · have hf : fetch url = Except.ok c := (h sid0 s0 hs0).2 url c hc
          intro sid s hs
          simp only [stepOp] at hs
          rw [execute_open_cached fetch st sid0 url loc nl s0 c hurl hs0 hc] at hs
          exact storeInv_openUpdate fetch st lo sid0 url c loc nl h hurl hf sid s hs

/-- The invariant holds in every state reachable by a trace of
operations from the empty store. -/
theorem storeInv_run (fetch : String → Except String String) (trace : List Op) :
    StoreInv fetch (runOps fetch trace) (fun sid => lastOpened fetch sid trace) := by
  suffices hgen : ∀ st lo, StoreInv fetch st lo →
      StoreInv fetch (trace.foldl (stepOp fetch) st)
        (fun sid => trace.foldl (lastOpenedStep fetch sid) (lo sid)) by
    have hinit : StoreInv fetch [] (fun _ => none) := by
      intro sid s hs
      simp [mapLookup] at hs
    simpa [runOps, lastOpened] using hgen [] (fun _ => none) hinit
  induction trace with
  | nil =>
    intro st lo h
    simpa using h
  | cons op rest ih =>
    intro st lo h
    simpa using ih _ _ (storeInv_step fetch st lo op h)

/-! ### Claim theorems -/

/-- C1 counterexample: with `num_lines = -2` and `loc = 3` on five-line
content, the check `loc < total_lines` passes but the wrapped cast makes
`end_loc = 1 < loc`, so the slice bound fails and `open` panics: the
claimed bound `loc <= end_loc` is violated. -/
theorem open_negative_num_lines_panics :
    (execute_open (fun _ => Except.ok ("l0\nl1\nl2\nl3\nl4")) [] ("S") ("u") 3 (-2)).2.2 =
      OpenOutcome.panic ∧
    (rustLines ("l0\nl1\nl2\nl3\nl4")).length = 5 ∧
    open_end_loc 3 (-2) 5 = 1 := by
  decide

/-- C1 (amended: `num_lines >= -1`, with the `i64` range bound on
`num_lines` and line counts below `2^63`): once the check
`loc < total_lines` has passed, the computed end index satisfies
`loc <= end_loc <= total_lines`, and `execute_open` never panics. -/
theorem open_no_panic_c1 (fetch : String → Except String String) (sessions : Sessions)
    (sid url : String) (loc : Nat) (nl : Int)
    (h1 : -1 ≤ nl) (h2 : nl < 2 ^ 63)
    (hfetch : ∀ c, fetch url = Except.ok c → (rustLines c).length ≤ 2 ^ 63)
    (hcache : ∀ s c, mapLookup sid sessions = some s → mapLookup url s.pages = some c →
      (rustLines c).length ≤ 2 ^ 63) :
    (execute_open fetch sessions sid url loc nl).2.2 ≠ OpenOutcome.panic ∧
    (∀ content, (rustLines content).length ≤ 2 ^ 63 → loc < (rustLines content).length →
      loc ≤ open_end_loc loc nl (rustLines content).length ∧
      open_end_loc loc nl (rustLines content).length ≤ (rustLines content).length) := by
  constructor
  · by_cases hurl : rustTrim url = ""
    · simp [execute_open, hurl]
    · rcases hs : mapLookup sid sessions with _ | s
      · rcases hf : fetch url with e | c
        · rw [execute_open_fetch_err fetch sessions sid url loc nl e hurl (by simp [hs]) hf]
          simp
        · rw [execute_open_fetched fetch sessions sid url loc nl c hurl (by simp [hs]) hf]
          exact openPaginate_ne_panic url c loc nl h1 h2 (hfetch c hf)
      · rcases hc : mapLookup url s.pages with _ | c
        · rcases hf : fetch url with e | c
          · rw [execute_open_fetch_err fetch sessions sid url loc nl e hurl (by simp [hs, hc]) hf]
            simp
          · rw [execute_open_fetched fetch sessions sid url loc nl c hurl (by simp [hs, hc]) hf]
            exact openPaginate_ne_panic url c loc nl h1 h2 (hfetch c hf)
        · rw [execute_open_cached fetch sessions sid url loc nl s c hurl hs hc]
          exact openPaginate_ne_panic url c loc nl h1 h2 (hcache s c hs hc)
  · intro content h3 h4
    exact open_end_loc_bounds loc nl _ h1 h2 h3 h4

/-- Witness for the amended C1 at a concrete input. -/
theorem open_no_panic_c1_witness :
    (execute_open (fun _ => Except.ok ("a\nb")) [] ("S") ("u") 0 (-1)).2.2 ≠
      OpenOutcome.panic :=
  (open_no_panic_c1 (fun _ => Except.ok ("a\nb")) [] ("S") ("u") 0 (-1)
    (by decide) (by decide)
    (fun c hc => by
      injection hc with h
      subst h
      decide)
    (fun s c hs hc => by simp [mapLookup] at hs)).1

/-- C4: an `open` whose resolved content is nonempty and whose `loc` is
at least the line count fails with the Invalid-Location error whose
message reports `total_lines - 1` as the maximum valid index. -/
theorem open_invalid_loc_reports_max (fetch : String → Except String String)
    (sessions : Sessions) (sid url content : String) (loc : Nat) (nl : Int)
    (hurl : rustTrim url ≠ "")
    (hres : (mapLookup sid sessions).bind (fun s => mapLookup url s.pages) = some content ∨
      ((mapLookup sid sessions).bind (fun s => mapLookup url s.pages) = none ∧
        fetch url = Except.ok content))
    (_hpos : 0 < (rustLines content).length)
    (hloc : (rustLines content).length ≤ loc) :
    (execute_open fetch sessions sid url loc nl).2.2 =
      .err ("❌ Invalid location parameter: " ++ Nat.repr loc ++
        ". Cannot exceed page maximum of " ++
        Nat.repr ((rustLines content).length - 1) ++ ".") := by
  have hpag : openPaginate url content loc nl =
      .err ("❌ Invalid location parameter: " ++ Nat.repr loc ++
        ". Cannot exceed page maximum of " ++
        Nat.repr ((rustLines content).length - 1) ++ ".") := by
    simp only [openPaginate]
    rw [if_pos (by omega)]
  rcases hres with hres | ⟨hmiss, hf⟩
  · rcases hs : mapLookup sid sessions with _ | s
    · rw [hs] at hres
      simp at hres
    · rw [hs, Option.some_bind] at hres
      rw [execute_open_cached fetch sessions sid url loc nl s content hurl hs hres]
      exact hpag
  · rw [execute_open_fetched fetch sessions sid url loc nl content hurl hmiss hf]
    exact hpag

/-- Witness for C4 at a concrete input. -/
theorem open_invalid_loc_reports_max_witness :
    rustTrim ("u") ≠ "" ∧
    (execute_open (fun _ => Except.ok ("a\nb")) [] ("S") ("u") 5 (-1)).2.2 =
      .err ("❌ Invalid location parameter: " ++ Nat.repr 5 ++
        ". Cannot exceed page maximum of " ++
        Nat.repr ((rustLines ("a\nb")).length - 1) ++ ".") :=
  ⟨by decide,
    open_invalid_loc_reports_max (fun _ => Except.ok ("a\nb")) [] ("S") ("u") ("a\nb") 5 (-1)
      (by decide) (Or.inr ⟨rfl, rfl⟩) (by decide) (by decide)⟩

/-- C10: when `open` resolves content and then fails the
`loc >= total_lines` check, the session update has already happened and
is not rolled back: the page is in `pages` and is the current page. -/
theorem open_state_updated_despite_loc_error (fetch : String → Except String String)
    (sessions : Sessions) (sid url content : String) (loc : Nat) (nl : Int)
    (hurl : rustTrim url ≠ "")
    (hres : (mapLookup sid sessions).bind (fun s => mapLookup url s.pages) = some content ∨
      ((mapLookup sid sessions).bind (fun s => mapLookup url s.pages) = none ∧
        fetch url = Except.ok content))
    (hloc : (rustLines content).length ≤ loc) :
    (execute_open fetch sessions sid url loc nl).2.2 =
      .err ("❌ Invalid location parameter: " ++ Nat.repr loc ++
        ". Cannot exceed page maximum of " ++
        Nat.repr ((rustLines content).length - 1) ++ ".") ∧
    ∃ s', mapLookup sid (execute_open fetch sessions sid url loc nl).1 = some s' ∧
      s'.current_url = some url ∧ s'.current_content = some content ∧
      mapLookup url s'.pages = some content := by
  have hpag : openPaginate url content loc nl =
      .err ("❌ Invalid location parameter: " ++ Nat.repr loc ++
        ". Cannot exceed page maximum of " ++
        Nat.repr ((rustLines content).length - 1) ++ ".") := by
    simp only [openPaginate]
    rw [if_pos (by omega)]
  have hupd : ∀ c0 : String,
      mapLookup sid (openUpdate sessions sid url c0) =
        some { current_url := some url
               current_content := some c0
               pages := mapInsert url c0
                 (((mapLookup sid sessions).getD BrowserSession.default).pages) } :=
    fun c0 => openUpdate_lookup_self sessions sid url c0
  rcases hres with hres | ⟨hmiss, hf⟩
  · rcases hs : mapLookup sid sessions with _ | s
    · rw [hs] at hres
      simp at hres
    · rw [hs, Option.some_bind] at hres
      rw [execute_open_cached fetch sessions sid url loc nl s content hurl hs hres]
      refine ⟨hpag, _, hupd content, rfl, rfl, mapLookup_insert_self _ _ _⟩
  · rw [execute_open_fetched fetch sessions sid url loc nl content hurl hmiss hf]
    refine ⟨hpag, _, hupd content, rfl, rfl, mapLookup_insert_self _ _ _⟩

/-- Witness for C10 at a concrete input. -/
theorem open_state_updated_despite_loc_error_witness :
    (rustLines ("a\nb")).length ≤ 7 ∧
    ((execute_open (fun _ => Except.ok ("a\nb")) [] ("S") ("u") 7 0).2.2 =
      .err ("❌ Invalid location parameter: " ++ Nat.repr 7 ++
        ". Cannot exceed page maximum of " ++
        Nat.repr ((rustLines ("a\nb")).length - 1) ++ ".") ∧
    ∃ s', mapLookup ("S") (execute_open (fun _ => Except.ok ("a\nb")) [] ("S") ("u") 7 0).1 =
        some s' ∧
      s'.current_url = some ("u") ∧ s'.current_content = some ("a\nb") ∧
      mapLookup ("u") s'.pages = some ("a\nb")) :=
  ⟨by decide,
    open_state_updated_despite_loc_error (fun _ => Except.ok ("a\nb")) [] ("S") ("u") ("a\nb") 7 0
      (by decide) (Or.inr ⟨rfl, rfl⟩) (by decide)⟩

/-- C2 counterexample: on a fresh (never-opened) session, `find` with a
pattern and no `url` fails with the "No active session found" error, which
is not the "no page open" error the claim names. -/
theorem find_fresh_session_cex :
    execute_find [] ("S1") ("foo") none = Except.error ("❌ No active session found.") ∧
    ("❌ No active session found.") ≠
      ("❌ No page is currently open.\nPlease open a page first using the 'open' tool.") :=
  ⟨rfl, by decide⟩

/-- C2 (amended): on a never-opened session — the store has no entry for
the id, including right after termination removed it — `find` with a
pattern and no `url` fails, but with the "No active session found" error;
the "no page open" error is returned only for a stored session lacking a
current page. -/
theorem find_fresh_session_error (sessions : Sessions) (sid pattern : String)
    (hp : rustTrim pattern ≠ "") :
    (mapLookup sid sessions = none →
      execute_find sessions sid pattern none = Except.error ("❌ No active session found.")) ∧
    execute_find (mapRemove sid sessions) sid pattern none =
      Except.error ("❌ No active session found.") := by
  constructor
  · intro h
    simp [execute_find, hp, h]
  · simp [execute_find, hp, mapLookup_remove_self]

/-- Witness for the amended C2: a terminated session behaves as fresh. -/
theorem find_fresh_session_error_witness :
    rustTrim ("foo") ≠ "" ∧
    execute_find (mapRemove ("S1") [(("S1"), BrowserSession.default)]) ("S1") ("foo") none =
      Except.error ("❌ No active session found.") :=
  ⟨by decide,
    (find_fresh_session_error [(("S1"), BrowserSession.default)] ("S1") ("foo") (by decide)).2⟩

/-- C3: the cache policy of `execute_open`. On a cache hit the Content
Fetcher is not invoked and the outcome paginates the cached content
verbatim; on a miss the fetcher is invoked and a successful fetch is
stored into `pages` and into `current_url`/`current_content`, the outcome
paginating the fetched content. -/
theorem open_cache_policy (fetch : String → Except String String) (sessions : Sessions)
    (sid url : String) (loc : Nat) (nl : Int) (hurl : rustTrim url ≠ "") :
    (∀ s c, mapLookup sid sessions = some s → mapLookup url s.pages = some c →
      (execute_open fetch sessions sid url loc nl).2.1 = false ∧
      (execute_open fetch sessions sid url loc nl).2.2 = openPaginate url c loc nl) ∧
    ((mapLookup sid sessions).bind (fun s => mapLookup url s.pages) = none →
      (execute_open fetch sessions sid url loc nl).2.1 = true ∧
      ∀ c, fetch url = Except.ok c →
        ∃ s', mapLookup sid (execute_open fetch sessions sid url loc nl).1 = some s' ∧
          s'.current_url = some url ∧ s'.current_content = some c ∧
          mapLookup url s'.pages = some c ∧
          (execute_open fetch sessions sid url loc nl).2.2 = openPaginate url c loc nl) := by
  constructor
  · intro s c hs hc
    rw [execute_open_cached fetch sessions sid url loc nl s c hurl hs hc]
    exact ⟨rfl, rfl⟩
  · intro hmiss
    rcases hf : fetch url with e | c
    · rw [execute_open_fetch_err fetch sessions sid url loc nl e hurl hmiss hf]
      refine ⟨rfl, fun c hc => ?_⟩
      cases hc
    · rw [execute_open_fetched fetch sessions sid url loc nl c hurl hmiss hf]
      refine ⟨rfl, fun c' hc' => ?_⟩
      injection hc' with h
      subst h
      exact ⟨_, openUpdate_lookup_self sessions sid url c, rfl, rfl,
        mapLookup_insert_self _ _ _, rfl⟩

/-- Witness for C3: a second `open` of a cached URL does not consult the
fetcher (here the fetcher always fails, yet the open paginates the cached
content). -/
theorem open_cache_policy_witness :
    (execute_open (fun _ => Except.error ("network down"))
        [(("S"), ⟨some ("u"), some ("x"), [(("u"), ("x"))]⟩)] ("S") ("u") 0 (-1)).2.1 = false ∧
    (execute_open (fun _ => Except.error ("network down"))
        [(("S"), ⟨some ("u"), some ("x"), [(("u"), ("x"))]⟩)] ("S") ("u") 0 (-1)).2.2 =
      openPaginate ("u") ("x") 0 (-1) :=
  (open_cache_policy (fun _ => Except.error ("network down"))
      [(("S"), ⟨some ("u"), some ("x"), [(("u"), ("x"))]⟩)] ("S") ("u") 0 (-1)
      (by decide)).1 _ _ rfl rfl

/-- C6 counterexample: a supplied value of `-5` yields the default 10, not
the claimed clamp of the supplied value into `[1, 50]` (which would be 1),
because `as_u64` rejects negative numbers and the default applies. -/
theorem topn_negative_not_clamped :
    effective_topn (some (-5)) = 10 ∧
    ((effective_topn (some (-5)) : Int) ≠ max 1 (min (-5) 50)) := by
  constructor
  · rfl
  · decide

/-- C6 (amended): supplied values that parse under `as_u64`
(non-negative, below `2^64`) are clamped to `[1, 50]`; an absent value
defaults to 10; 0 behaves as 1 and 1000 behaves as 50. -/
theorem topn_clamp_spec :
    (∀ n : Int, 0 ≤ n → n < 2 ^ 64 → (effective_topn (some n) : Int) = max 1 (min n 50)) ∧
    effective_topn none = 10 ∧ effective_topn (some 0) = 1 ∧
    effective_topn (some 1000) = 50 := by
  refine ⟨?_, rfl, rfl, rfl⟩
  intro n h0 h64
  simp only [effective_topn, topn_as_u64, Option.some_bind, h0, h64, and_self, if_pos,
    Option.getD_some, true_and]
  omega

/-- Witness for the amended C6. -/
theorem topn_clamp_spec_witness :
    (0 ≤ (7 : Int) ∧ (7 : Int) < 2 ^ 64) ∧
    (effective_topn (some 7) : Int) = max 1 (min 7 50) :=
  ⟨⟨by decide, by decide⟩, topn_clamp_spec.1 7 (by decide) (by decide)⟩

/-- C5 counterexample: with `num_lines = -2` and `loc = 0` on one-line
content the call succeeds, but the end index actually used is
`total_lines = 1` (the wrapped cast saturates at the total), not the
claimed `min(loc + num_lines, total_lines) = -2`. -/
theorem open_end_not_min_cex :
    (openPaginate ("u") ("x") 0 (-2)).isOk = true ∧
    (rustLines ("x")).length = 1 ∧
    open_end_loc 0 (-2) 1 = 1 ∧
    ((open_end_loc 0 (-2) 1 : Int) ≠ min ((0 : Int) + (-2)) 1) := by
  refine ⟨by decide, by decide, ?_, ?_⟩ <;> decide

/-- C5 (amended: `num_lines = -1` or `num_lines >= 0`, within the `i64`
range, line count below `2^63`): a successful `open` uses end index
`total_lines` when `num_lines = -1` and `min (loc + num_lines) total_lines`
otherwise; the output is the header, then exactly the lines of the
absolute interval `[loc, end)` each prefixed `L<n>: `, then a truncation
notice naming `end - 1` and `total_lines - 1` exactly when
`end < total_lines`, and it ends with the URL and the total line count. -/
theorem open_success_output_spec (url content : String) (loc : Nat) (nl : Int)
    (hnl : nl = -1 ∨ 0 ≤ nl) (h2 : nl < 2 ^ 63)
    (h3 : (rustLines content).length ≤ 2 ^ 63)
    (hloc : loc < (rustLines content).length) :
    open_end_loc loc nl (rustLines content).length =
      (if nl = -1 then (rustLines content).length
       else min (loc + nl.toNat) (rustLines content).length) ∧
    openPaginate url content loc nl =
      OpenOutcome.ok (
        (("📄 **" ++ url ++ "**\n\n") ++
          (if loc > 0 then "📄 [Starting from line " ++ Nat.repr loc ++ "]\n\n" else "")) ++
        String.join
          ((List.range' loc (open_end_loc loc nl (rustLines content).length - loc)).map
            (fun n => "L" ++ Nat.repr n ++ ": " ++ (rustLines content).getD n ("") ++ "\n")) ++
        (if open_end_loc loc nl (rustLines content).length < (rustLines content).length then
          "\n📄 [Content truncated at line " ++
            Nat.repr (open_end_loc loc nl (rustLines content).length - 1) ++ " of " ++
            Nat.repr ((rustLines content).length - 1) ++
            ". Use loc parameter to continue reading.]"
        else "") ++
        (("\n\n🔗 **URL:** " ++ url) ++
          ("\n📊 **Stats:** " ++ Nat.repr ((rustLines content).length) ++ " lines total"))) := by
  have h1 : -1 ≤ nl := by rcases hnl with h | h <;> omega
  exact ⟨open_end_loc_eq loc nl _ h1 h2 h3 hloc,
    openPaginate_ok_form url content loc nl hloc
      (open_end_loc_bounds loc nl _ h1 h2 h3 hloc).1⟩

/-- Witness for the amended C5. -/
theorem open_success_output_spec_witness :
    (1 < (rustLines ("a\nb\nc")).length) ∧
    open_end_loc 1 1 (rustLines ("a\nb\nc")).length =
      (if (1 : Int) = -1 then (rustLines ("a\nb\nc")).length
       else min (1 + (1 : Int).toNat) (rustLines ("a\nb\nc")).length) :=
  ⟨by decide,
    (open_success_output_spec ("u") ("a\nb\nc") 1 1 (Or.inr (by decide)) (by decide) (by decide)
      (by decide)).1⟩

/-- C7: `find` semantics on selected content. A line index is matched
exactly when the lowercased pattern occurs in the lowercased line; each
match's context window is exactly the absolute interval
`[max 0 (i-2), min (i+3) total)` with the matched line bracketed and all
lines numbered; the rendering shows the first 10 matches and reports the
number of suppressed matches exactly when more than 10 exist; zero
matches renders the "no matches" message, and `find` on a current page
always returns success, never an error. -/
theorem find_matching_spec (pattern content url : String) :
    (∀ i, i < (rustLines content).length →
      ((∃ ctx, (i, ctx) ∈ findMatches pattern (rustLines content)) ↔
        lowerL pattern <:+: lowerL ((rustLines content).getD i ("")))) ∧
    (∀ i ctx, (i, ctx) ∈ findMatches pattern (rustLines content) →
      ctx = (List.range' (i - 2)
          (min (i + 3) (rustLines content).length - (i - 2))).map
        (fun n =>
          if n = i then
            "L" ++ Nat.repr n ++ ": >>> " ++ (rustLines content).getD n ("") ++ " <<<"
          else "L" ++ Nat.repr n ++ ": " ++ (rustLines content).getD n (""))) ∧
    (findMatches pattern (rustLines content) = [] →
      findInContent pattern content url =
        ("🔎 No matches found for pattern: '" ++ pattern ++
          "'\n\n💡 **Suggestions:**\n- Check spelling\n- Try a different search term\n- Use partial words or phrases")) ∧
    (findMatches pattern (rustLines content) ≠ [] →
      findInContent pattern content url =
        ("🔎 **Found " ++ Nat.repr (findMatches pattern (rustLines content)).length ++
            " match(es) for '" ++ pattern ++ "' in " ++ url ++ ":**\n\n") ++
          String.join (((findMatches pattern (rustLines content)).take 10).enum.map
            (fun p => findBlock p.1 p.2)) ++
          (if (findMatches pattern (rustLines content)).length > 10 then
            "... and " ++ Nat.repr ((findMatches pattern (rustLines content)).length - 10) ++
              " more matches (showing first 10)\n\n"
          else "") ++
          "💡 Use the line numbers to navigate to specific matches.") ∧
    (∀ (sessions : Sessions) (sid : String) (s : BrowserSession), rustTrim pattern ≠ "" →
      mapLookup sid sessions = some s → s.current_content = some content →
      s.current_url = some url →
      execute_find sessions sid pattern none =
        Except.ok (findInContent pattern content url)) := by
  refine ⟨?_, ?_, ?_, ?_, ?_⟩
  · intro i hi
    constructor
    · rintro ⟨ctx, hctx⟩
      have hm := ((findMatches_mem pattern _ i ctx).1 hctx).2.1
      rw [lineMatches] at hm
      exact (containsL_iff _ _).1 hm
    · intro hinf
      refine ⟨contextLines (rustLines content) i, (findMatches_mem pattern _ i _).2 ⟨hi, ?_, rfl⟩⟩
      rw [lineMatches]
      exact (containsL_iff _ _).2 hinf
  · intro i ctx hmem
    have hm := (findMatches_mem pattern _ i ctx).1 hmem
    rw [hm.2.2]
    exact contextLines_eq _ i hm.1
  · intro h
    simp only [findInContent, h, if_pos]
  · intro h
    simp only [findInContent, if_neg h]
  · intro sessions sid s hp hs hc hu
    simp [execute_find, hp, hs, hc, hu]

/-- Witness for C7 at a concrete input. -/
theorem find_matching_spec_witness :
    (1 < (rustLines ("a\nFOO b\nc")).length) ∧
    ((∃ ctx, (1, ctx) ∈ findMatches ("foo") (rustLines ("a\nFOO b\nc"))) ↔
      lowerL ("foo") <:+: lowerL ((rustLines ("a\nFOO b\nc")).getD 1 (""))) :=
  ⟨by decide, (find_matching_spec ("foo") ("a\nFOO b\nc") ("u")).1 1 (by decide)⟩

/-- C8: a request with an unrecognized method, and a `tools/call` naming
an unknown tool, both fail with error code -32601 (Method not found), the
`data` field naming the method or tool respectively. -/
theorem unknown_method_and_tool_mnf (toolExec : String → Json → String → Except String String)
    (req : JsonRpcRequest) (sid : String) (sessions : Sessions)
    (hv : req.jsonrpc = "2.0") :
    (req.method ∉ [("initialize"), ("tools/list"), ("tools/call"), ("ping"),
        ("session/terminate"), ("notifications/cancelled")] →
      (handle_mcp_request toolExec req sid sessions).1.error =
        some ⟨-32601, ("Method not found"), some (("Unknown method: ") ++ req.method)⟩) ∧
    (∀ params name, req.method = ("tools/call") → req.params = some params →
      (params.get ("name")).bind Json.asStr = some name → name ∉ TOOLS_keys →
      (handle_mcp_request toolExec req sid sessions).1.error =
        some ⟨-32601, ("Method not found"), some (("Unknown tool: ") ++ name)⟩) := by
  constructor
  · intro hm
    simp only [List.mem_cons, List.not_mem_nil, or_false, not_or] at hm
    obtain ⟨h1, h2, h3, h4, h5, h6⟩ := hm
    simp [handle_mcp_request, hv, h1, h2, h3, h4, h5, h6, McpResponse.error]
  · intro params name hm hp hn hk
    simp [handle_mcp_request, hv, hm, handle_tools_call, hp, hn, hk, McpResponse.error]

/-- Witness for C8 at concrete requests. -/
theorem unknown_method_and_tool_mnf_witness :
    (("bogus") ∉ [("initialize"), ("tools/list"), ("tools/call"), ("ping"),
        ("session/terminate"), ("notifications/cancelled")]) ∧
    (handle_mcp_request (fun _ _ _ => Except.ok ("")) ⟨("2.0"), none, ("bogus"), none⟩
        ("default") []).1.error =
      some ⟨-32601, ("Method not found"), some (("Unknown method: ") ++ ("bogus"))⟩ ∧
    (handle_mcp_request (fun _ _ _ => Except.ok ("")) ⟨("2.0"), none, ("tools/call"),
        some (Json.obj [(("name"), Json.str ("zap"))])⟩ ("default") []).1.error =
      some ⟨-32601, ("Method not found"), some (("Unknown tool: ") ++ ("zap"))⟩ :=
  ⟨by decide,
    (unknown_method_and_tool_mnf (fun _ _ _ => Except.ok (""))
      ⟨("2.0"), none, ("bogus"), none⟩ ("default") [] rfl).1 (by decide),
    (unknown_method_and_tool_mnf (fun _ _ _ => Except.ok (""))
      ⟨("2.0"), none, ("tools/call"), some (Json.obj [(("name"), Json.str ("zap"))])⟩
      ("default") [] rfl).2 (Json.obj [(("name"), Json.str ("zap"))]) ("zap")
      rfl rfl rfl (by decide)⟩

/-- C9: in every state reachable by a trace of open/find/search/terminate
operations, each stored session has `current_url`/`current_content` both
absent or both present, and when present they are exactly the most
recently opened entry, which is cached in `pages`. -/
theorem session_current_invariant (fetch : String → Except String String) (trace : List Op)
    (sid : String) (s : BrowserSession)
    (hs : mapLookup sid (runOps fetch trace) = some s) :
    (s.current_url = none ∧ s.current_content = none) ∨
    (∃ u c, s.current_url = some u ∧ s.current_content = some c ∧
      mapLookup u s.pages = some c ∧ lastOpened fetch sid trace = some (u, c)) :=
  Or.inr (storeInv_run fetch trace sid s hs).1

/-- Witness for C9: one opened page. -/
theorem session_current_invariant_witness :
    (mapLookup ("S") (runOps (fun _ => Except.ok ("x\ny")) [Op.opn ("S") ("u") 0 (-1)]) =
      some (⟨some ("u"), some ("x\ny"), [(("u"), ("x\ny"))]⟩ : BrowserSession)) ∧
    (((⟨some ("u"), some ("x\ny"), [(("u"), ("x\ny"))]⟩ : BrowserSession).current_url = none ∧
      (⟨some ("u"), some ("x\ny"), [(("u"), ("x\ny"))]⟩ : BrowserSession).current_content =
        none) ∨
    (∃ u c,
      (⟨some ("u"), some ("x\ny"), [(("u"), ("x\ny"))]⟩ : BrowserSession).current_url = some u ∧
      (⟨some ("u"), some ("x\ny"), [(("u"), ("x\ny"))]⟩ : BrowserSession).current_content =
        some c ∧
      mapLookup u (⟨some ("u"), some ("x\ny"), [(("u"), ("x\ny"))]⟩ : BrowserSession).pages =
        some c ∧
      lastOpened (fun _ => Except.ok ("x\ny")) ("S") [Op.opn ("S") ("u") 0 (-1)] =
        some (u, c))) := by
  constructor
  · decide
  · exact session_current_invariant (fun _ => Except.ok ("x\ny")) [Op.opn ("S") ("u") 0 (-1)]
      ("S") _ (by decide)

end GptOssMcp
